import Mathlib

/-!
# Verification of the grant model of `terraform-provider-mysql`

This file is a shallow embedding of `mysql/resource_grant.go`: the identity
and grant data model, the SQL statement generators, the privilege
canonicalizer, the `SHOW GRANTS` row parser (including a small backtracking
regular-expression engine reproducing Go's leftmost-first `FindStringSubmatch`
semantics for the concrete patterns used by the source), and the
reconciliation logic (conflict detection, privilege diff, import matching,
idempotent delete).  Character-level operations (`\w`, `\s`, upper-casing)
are modelled with their ASCII semantics, which is what the source relies on
for SQL keywords and privilege names.
-/

namespace GrantModel

/-! ## Basic character/string utilities mirroring the Go standard library -/

/-- One segment split: Go's `strings.Split(s, sep)` for a single-character
separator (always returns at least one, possibly empty, segment). -/
def splitOnChar (sep : Char) : List Char → List (List Char)
  | [] => [[]]
  | c :: rest =>
    if c = sep then
      [] :: splitOnChar sep rest
    else
      match splitOnChar sep rest with
      | p :: ps => (c :: p) :: ps
      | [] => [[c]]

/-- Go's `strings.Trim(s, cutset)`: remove leading and trailing characters
belonging to `cutset`. -/
def trimChars (cut : Char → Bool) (l : List Char) : List Char :=
  ((l.dropWhile cut).reverse.dropWhile cut).reverse

/-- Go's `strings.Join(parts, sep)`. -/
def joinSep (sep : List Char) : List (List Char) → List Char
  | [] => []
  | [x] => x
  | x :: xs => x ++ sep ++ joinSep sep xs

/-- String-level wrapper for `splitOnChar`. -/
def splitString (sep : Char) (s : String) : List String :=
  (splitOnChar sep s.data).map String.mk

/-- String-level wrapper for `trimChars`. -/
def trimString (cut : Char → Bool) (s : String) : String :=
  String.mk (trimChars cut s.data)

/-- String-level wrapper for `joinSep` (Go's `strings.Join`). -/
def joinStrings (sep : String) (l : List String) : String :=
  String.mk (joinSep sep.data (l.map String.data))

/-- The character class of the Go regex `[ `+backtick+`]` used by
`normalizePerms` ("spaces and backticks are optional"). -/
def isSpaceOrBacktick (c : Char) : Bool :=
  c == ' ' || c == '`'

/-- Go's `regexp.MustCompile("[ `]").ReplaceAllString(s, "")`: delete every
space and backtick. -/
def stripSpacesBackticks (l : List Char) : List Char :=
  l.filter (fun c => !isSpaceOrBacktick c)

/-- Go's `strings.ToUpper` restricted to ASCII (the source only upper-cases
privilege tokens, which are ASCII). -/
def upperChars (l : List Char) : List Char :=
  l.map Char.toUpper

/-- Go's `strings.ToLower` restricted to ASCII (used for the TLS-option
comparison with "none"). -/
def lowerString (s : String) : String :=
  String.mk (s.data.map Char.toLower)

/-- RE2's `\s` class: `[\t\n\f\r ]`. -/
def goSpace (c : Char) : Bool :=
  c == ' ' || c == '\t' || c == '\n' || c == '\x0c' || c == '\r'

/-- RE2's `\w` class: `[0-9A-Za-z_]`. -/
def goWord (c : Char) : Bool :=
  ('0' ≤ c && c ≤ '9') || ('A' ≤ c && c ≤ 'Z') || ('a' ≤ c && c ≤ 'z') || c == '_'

/-- The class `[\w\s,]` used by the grant classification regexes. -/
def wordSpaceComma (c : Char) : Bool :=
  goWord c || goSpace c || c == ','

/-- RE2's `.`: any character except newline. -/
def goDot (c : Char) : Bool :=
  c != '\n'

/-! ## A small backtracking regex engine

The source classifies grant rows with `regexp.FindStringSubmatch`.  Go
guarantees leftmost-first (Perl-style backtracking) semantics for submatches.
All patterns in the source apply `*`/`+` only to single character classes, so
the engine below restricts quantifiers to character classes, which makes the
backtracking search structurally recursive while preserving the exact match
and capture semantics of the source's patterns. -/

/-- Regular expressions as used by `resource_grant.go`. -/
inductive RE where
  /-- a single character from a class -/
  | cls (p : Char → Bool)
  /-- a literal string (empty = ε) -/
  | lit (s : List Char)
  /-- greedy `p*` over a character class -/
  | star (p : Char → Bool)
  /-- greedy `p+` over a character class -/
  | plus (p : Char → Bool)
  /-- greedy optional group `r?` -/
  | opt (r : RE)
  /-- alternation `a|b` (left preferred) -/
  | alt (a b : RE)
  /-- concatenation -/
  | cat (a b : RE)
  /-- capture group number `n` -/
  | group (n : Nat) (r : RE)

/-- Captures: association list from group number to captured text. -/
abbrev Caps := List (Nat × List Char)

/-- Result threaded through the continuation-passing matcher: the remaining
suffix and the captures accumulated on the successful path. -/
abbrev MatchRes := Option (List Char × Caps)

/-- Try `f m`, `f (m-1)`, ..., `f 0` in that order, returning the first
success (the greedy order for `*`). -/
def firstSome (f : Nat → MatchRes) : Nat → MatchRes
  | 0 => f 0
  | n + 1 => (f (n + 1)).orElse (fun _ => firstSome f n)

/-- Try `f m`, ..., `f 1` in that order (the greedy order for `+`). -/
def firstSome1 (f : Nat → MatchRes) : Nat → MatchRes
  | 0 => none
  | n + 1 => (f (n + 1)).orElse (fun _ => firstSome1 f n)

/-- Backtracking matcher in continuation-passing style.  `r.matchK s caps k`
attempts to match a prefix of `s` against `r`; on each candidate split it
calls `k rest caps'`, backtracking while `k` returns `none`.  Alternatives
are explored in Go's leftmost-first priority order. -/
def RE.matchK : RE → List Char → Caps → (List Char → Caps → MatchRes) → MatchRes
  | .cls p, s, caps, k =>
    match s with
    | [] => none
    | c :: rest => if p c then k rest caps else none
  | .lit cs, s, caps, k =>
    if cs.isPrefixOf s then k (s.drop cs.length) caps else none
  | .star p, s, caps, k =>
    firstSome (fun j => k (s.drop j) caps) (s.takeWhile p).length
  | .plus p, s, caps, k =>
    firstSome1 (fun j => k (s.drop j) caps) (s.takeWhile p).length
  | .opt r, s, caps, k =>
    (r.matchK s caps k).orElse (fun _ => k s caps)
  | .alt a b, s, caps, k =>
    (a.matchK s caps k).orElse (fun _ => b.matchK s caps k)
  | .cat a b, s, caps, k =>
    a.matchK s caps (fun s' caps' => b.matchK s' caps' k)
  | .group n r, s, caps, k =>
    r.matchK s caps (fun s' caps' => k s' (caps' ++ [(n, s.take (s.length - s'.length))]))

/-- Match `r` against a prefix of `s`; on success return the whole matched
text (group 0) and the captures. -/
def RE.matchAt (r : RE) (s : List Char) : Option (List Char × Caps) :=
  match r.matchK s [] (fun rest caps => some (rest, caps)) with
  | some (rest, caps) => some (s.take (s.length - rest.length), caps)
  | none => none

/-- Go's `FindStringSubmatch`: leftmost-first search — try each start
position from the left, taking the first position at which a match exists. -/
def RE.find : RE → List Char → Option (List Char × Caps)
  | r, s =>
    match r.matchAt s with
    | some res => some res
    | none =>
      match s with
      | [] => none
      | _ :: t => r.find t

/-- Whether the regex matches anywhere in the string (Go's `MatchString`). -/
def RE.matches (r : RE) (s : List Char) : Bool :=
  (r.find s).isSome

/-- Anchored full match (for the `^...$` patterns `kReProcedure...`). -/
def RE.matchFull (r : RE) (s : List Char) : Option Caps :=
  match r.matchK s [] (fun rest caps => if rest.isEmpty then some (rest, caps) else none) with
  | some (_, caps) => some caps
  | none => none

/-- Look up capture group `n`; unset groups yield `""` exactly as Go's
`FindStringSubmatch` does. -/
def capGet (caps : Caps) (n : Nat) : List Char :=
  match caps.find? (fun pr => pr.1 == n) with
  | some pr => pr.2
  | none => []

/-- Concatenate a list of regexes. -/
def reSeq (l : List RE) : RE :=
  l.foldr .cat (.lit [])

end GrantModel

namespace GrantModel

/-! ## Identity model (`User`, `Role`, `UserOrRole`) -/

/-- The `UserOrRole` interface: either a `User{User, Host}` or a
`Role{Role}`. -/
inductive UserOrRole where
  | user (name host : String)
  | role (name : String)
  deriving DecidableEq, Repr

/-- Source `User.SQLString` / `Role.SQLString`. -/
def UserOrRole.sqlString : UserOrRole → String
  | .user u h => "'" ++ u ++ "'@'" ++ h ++ "'"
  | .role r => "'" ++ r ++ "'"

/-- Go's default `%s` rendering of the underlying struct (used by the
conflict error message, where the interface value is formatted with `%s`
and neither struct implements `String()`). -/
def UserOrRole.goFormat : UserOrRole → String
  | .user u h => "\x7b" ++ u ++ " " ++ h ++ "\x7d"
  | .role r => "\x7b" ++ r ++ "\x7d"

/-! ## Grant entity model

The three implementations of the `MySQLGrant` interface, as one sum type:
`TablePrivilegeGrant`, `ProcedurePrivilegeGrant`, `RoleGrant`. -/

/-- The three grant variants of the source. -/
inductive MySQLGrant where
  /-- Source `TablePrivilegeGrant{Database, Table, Privileges, Grant, UserOrRole, TLSOption}` -/
  | tableGrant (database table : String) (privileges : List String)
      (grant : Bool) (userOrRole : UserOrRole) (tlsOption : String)
  /-- Source `ProcedurePrivilegeGrant{Database, ObjectT, CallableName, Privileges, Grant, UserOrRole, TLSOption}` -/
  | procedureGrant (database objectT callableName : String) (privileges : List String)
      (grant : Bool) (userOrRole : UserOrRole) (tlsOption : String)
  /-- Source `RoleGrant{Roles, Grant, UserOrRole, TLSOption}` -/
  | roleGrant (roles : List String) (grant : Bool) (userOrRole : UserOrRole) (tlsOption : String)
  deriving DecidableEq, Repr

namespace MySQLGrant

/-- Source `GrantOption()` of each variant (field `Grant`). -/
def grantOption : MySQLGrant → Bool
  | .tableGrant _ _ _ g _ _ => g
  | .procedureGrant _ _ _ _ g _ _ => g
  | .roleGrant _ g _ _ => g

/-- Source `GetUserOrRole()` of each variant. -/
def getUserOrRole : MySQLGrant → UserOrRole
  | .tableGrant _ _ _ _ u _ => u
  | .procedureGrant _ _ _ _ _ u _ => u
  | .roleGrant _ _ u _ => u

/-- The dynamic type of the grant value, as compared by
`reflect.TypeOf(desiredGrant) == reflect.TypeOf(dbGrant)`. -/
def kind : MySQLGrant → Nat
  | .tableGrant .. => 0
  | .procedureGrant .. => 1
  | .roleGrant .. => 2

end MySQLGrant

/-- Source `TablePrivilegeGrant.GetDatabase` (same code as
`ProcedurePrivilegeGrant.GetDatabase`): wrap the database name in backticks
unless it is `*` or already ends with a backtick. -/
def getDatabaseRendered (database : String) : String :=
  if database ≠ "*" ∧ database.data.getLast? ≠ some '`' then "`" ++ database ++ "`" else database

/-- Source `TablePrivilegeGrant.GetTable`: `*`/empty renders as `*`, anything else
is backtick-quoted. -/
def getTableRendered (table : String) : String :=
  if table = "*" ∨ table = "" then "*" else "`" ++ table ++ "`"

/-- The ` REQUIRE <tls>` suffix, emitted when the TLS option is non-empty and
not (case-insensitively) "none". -/
def requireSuffix (tlsOption : String) : String :=
  if tlsOption ≠ "" ∧ lowerString tlsOption ≠ "none" then " REQUIRE " ++ tlsOption else ""

/-- Source `MySQLGrant.SQLGrantStatement()` for each variant. -/
def MySQLGrant.sqlGrantStatement : MySQLGrant → String
  | .tableGrant db tbl privs g u tls =>
    "GRANT " ++ joinStrings ", " privs ++ " ON " ++ getDatabaseRendered db ++ "." ++
      getTableRendered tbl ++ " TO " ++ u.sqlString ++ requireSuffix tls ++
      (if g then " WITH GRANT OPTION" else "")
  | .procedureGrant db objT callable privs g u tls =>
    "GRANT " ++ joinStrings ", " privs ++ " ON " ++ objT ++ " " ++ getDatabaseRendered db ++
      "." ++ callable ++ " TO " ++ u.sqlString ++ requireSuffix tls ++
      (if g then " WITH GRANT OPTION" else "")
  | .roleGrant roles g u tls =>
    "GRANT " ++ joinStrings ", " roles ++ " TO " ++ u.sqlString ++ requireSuffix tls ++
      (if g then " WITH ADMIN OPTION" else "")

/-- Source `MySQLGrant.SQLRevokeStatement()` for each variant. -/
def MySQLGrant.sqlRevokeStatement : MySQLGrant → String
  | .tableGrant db tbl privs g u _ =>
    "REVOKE " ++ joinStrings ", " privs ++ " ON " ++ getDatabaseRendered db ++ "." ++
      getTableRendered tbl ++ " FROM " ++ u.sqlString ++
      (if g then " WITH GRANT OPTION" else "")
  | .procedureGrant db objT callable privs g u _ =>
    "REVOKE " ++ joinStrings ", " privs ++ " ON " ++ objT ++ " " ++ getDatabaseRendered db ++
      "." ++ callable ++ " FROM " ++ u.sqlString ++
      (if g then " WITH GRANT OPTION" else "")
  | .roleGrant roles _ u _ =>
    "REVOKE " ++ joinStrings ", " roles ++ " FROM " ++ u.sqlString

/-- Source `SQLPartialRevokePrivilegesStatement(privilegesToRevoke)`: only the
table and procedure variants implement the `PrivilegesPartiallyRevocable`
interface; `RoleGrant` does not (the type assertion in `updatePrivileges`
fails), which we model with `none`. -/
def MySQLGrant.sqlRevokeSubsetStatement : MySQLGrant → List String → Option String
  | .tableGrant db tbl _ g u _, toRevoke =>
    some ("REVOKE " ++ joinStrings ", " toRevoke ++ " ON " ++ getDatabaseRendered db ++ "." ++
      getTableRendered tbl ++ " FROM " ++ u.sqlString ++
      (if g then " WITH GRANT OPTION" else ""))
  | .procedureGrant db objT callable _ g u _, toRevoke =>
    some ("REVOKE " ++ joinStrings ", " toRevoke ++ " ON " ++ objT ++ " " ++
      getDatabaseRendered db ++ "." ++ callable ++ " FROM " ++ u.sqlString ++
      (if g then " WITH GRANT OPTION" else ""))
  | .roleGrant .., _ => none

/-- Source `GetDatabase()` as seen through the `MySQLGrantWithDatabase` interface:
the table and procedure variants expose it, `RoleGrant` does not. -/
def MySQLGrant.getDatabase? : MySQLGrant → Option String
  | .tableGrant db .. => some (getDatabaseRendered db)
  | .procedureGrant db .. => some (getDatabaseRendered db)
  | .roleGrant .. => none

/-- Source `GetTable()` as seen through the `MySQLGrantWithTable` interface: only
the table variant exposes it. -/
def MySQLGrant.getTable? : MySQLGrant → Option String
  | .tableGrant _ tbl .. => some (getTableRendered tbl)
  | _ => none

end GrantModel

namespace GrantModel

/-! ## Privilege canonicalizer (`extractPermTypes`, `normalizeColumnOrder`,
`normalizePerms`, `removeUselessPerms`) -/

/-- Source `extractPermTypes`: split a comma-joined privilege string into tokens,
treating commas inside a parenthesized column list as non-separators
(parenthesis state is a single boolean) and skipping whitespace while the
current token is still empty. -/
def extractPermTypesAux : List Char → Bool → List Char → List (List Char)
  | [], _, currentWord => [currentWord]
  | b :: rest, inParentheses, currentWord =>
    if b = ',' then
      if inParentheses then
        extractPermTypesAux rest inParentheses (currentWord ++ [b])
      else
        currentWord :: extractPermTypesAux rest inParentheses []
    else if b = '(' then
      extractPermTypesAux rest true (currentWord ++ [b])
    else if b = ')' then
      extractPermTypesAux rest false (currentWord ++ [b])
    else if b.isWhitespace ∧ currentWord = [] then
      extractPermTypesAux rest inParentheses currentWord
    else
      extractPermTypesAux rest inParentheses (currentWord ++ [b])

/-- Source `extractPermTypes(g)` on strings. -/
def extractPermTypes (g : String) : List String :=
  (extractPermTypesAux g.data false []).map String.mk

/-- Source `normalizeColumnOrder`: for a token of the shape `NAME(<columns>)`
(the anchored regex `^([^(]*)\((.*)\)$`), split the columns on commas, trim
backticks and spaces from each, sort them, and rejoin with ", ".  Tokens
without such a shape pass through unchanged. -/
def normalizeColumnOrder (perm : String) : String :=
  let s := perm.data
  let pre := s.takeWhile (fun c => c ≠ '(')
  match s.dropWhile (fun c => c ≠ '(') with
  | [] => perm
  | _ :: inner =>
    if inner.getLast? = some ')' then
      let parts := (splitOnChar ',' inner.dropLast).map (trimChars isSpaceOrBacktick)
      let sorted := List.insertionSort (· ≤ ·) parts
      String.mk (pre ++ '(' :: joinSep ", ".data sorted ++ [')'])
    else perm

/-- Source `removeUselessPerms`: drop `USAGE` tokens. -/
def removeUselessPerms (grants : List String) : List String :=
  grants.filter (fun g => g ≠ "USAGE")

/-- The per-token normalization step of `normalizePerms`: delete spaces and
backticks, upper-case, rewrite `ALL`/`ALLPRIVILEGES` to `ALL PRIVILEGES`,
and sort any parenthesized column list. -/
def normalizePerm1 (perm : String) : String :=
  let permNorm := String.mk (stripSpacesBackticks perm.data)
  let permUcase := String.mk (upperChars permNorm.data)
  let permAliased := if permUcase = "ALL" ∨ permUcase = "ALLPRIVILEGES"
    then "ALL PRIVILEGES" else permUcase
  normalizeColumnOrder permAliased

/-- Source `normalizePerms`. -/
def normalizePerms (perms : List String) : List String :=
  removeUselessPerms (perms.map normalizePerm1)

/-! ## The compiled patterns of the source -/

/-- Source `reRequire = regexp.MustCompile(".*REQUIRE\s+(.*)")` (backtick-quoted in
the source). -/
def reRequire : RE :=
  reSeq [.star goDot, .lit "REQUIRE".data, .plus goSpace, .group 1 (.star goDot)]

/-- Source `userHostRegex = regexp.MustCompile("'([^']*)'(@'([^']*)')?")`. -/
def userHostRegex : RE :=
  reSeq [.lit ['\''], .group 1 (.star (fun c => c ≠ '\'')), .lit ['\''],
    .opt (.group 2 (reSeq [.lit ['@', '\''], .group 3 (.star (fun c => c ≠ '\'')),
      .lit ['\'']]))]

/-- Source `roleRegex = regexp.MustCompile("'[^']+'")`. -/
def roleRegex : RE :=
  reSeq [.lit ['\''], .plus (fun c => c ≠ '\''), .lit ['\'']]

/-- Source `roleGrantRegex = regexp.MustCompile("GRANT\s+([\w\s,]+)\s+TO\s+(.+)")`. -/
def roleGrantRegex : RE :=
  reSeq [.lit "GRANT".data, .plus goSpace, .group 1 (.plus wordSpaceComma),
    .plus goSpace, .lit "TO".data, .plus goSpace, .group 2 (.plus goDot)]

/-- Source `procedureGrantRegex =
regexp.MustCompile("GRANT\s+([\w\s,]+)\s+ON\s+(FUNCTION|PROCEDURE)\s+([\w\s,]+)\s+TO\s+(.+)")`. -/
def procedureGrantRegex : RE :=
  reSeq [.lit "GRANT".data, .plus goSpace, .group 1 (.plus wordSpaceComma),
    .plus goSpace, .lit "ON".data, .plus goSpace,
    .group 2 (.alt (.lit "FUNCTION".data) (.lit "PROCEDURE".data)),
    .plus goSpace, .group 3 (.plus wordSpaceComma),
    .plus goSpace, .lit "TO".data, .plus goSpace, .group 4 (.plus goDot)]

/-- Source `tableGrantRegex = regexp.MustCompile("GRANT\s+([\w\s,]+)\s+ON\s+(.+)\s+TO\s+(.+)")`. -/
def tableGrantRegex : RE :=
  reSeq [.lit "GRANT".data, .plus goSpace, .group 1 (.plus wordSpaceComma),
    .plus goSpace, .lit "ON".data, .plus goSpace, .group 2 (.plus goDot),
    .plus goSpace, .lit "TO".data, .plus goSpace, .group 3 (.plus goDot)]

/-- Source `reGrant = regexp.MustCompile("\bGRANT OPTION\b|\bADMIN OPTION\b")`:
the word-boundary pattern is implemented directly as a scan for an
occurrence of either phrase delimited by non-word characters (or the string
ends). -/
def reGrantMatchAux (needle : List Char) : List Char → Option Char → Bool
  | s, before =>
    (needle.isPrefixOf s
      && (match before with | some c => !goWord c | none => true)
      && (match s.drop needle.length with | c :: _ => !goWord c | [] => true))
    || (match s with
        | [] => false
        | c :: rest => reGrantMatchAux needle rest (some c))

/-- Source `reGrant.MatchString`. -/
def reGrantMatches (s : String) : Bool :=
  reGrantMatchAux "GRANT OPTION".data s.data none
    || reGrantMatchAux "ADMIN OPTION".data s.data none

/-- Case-insensitive literal, for the `(?i)` patterns `kReProcedure...`. -/
def litCI (s : List Char) : RE :=
  s.foldr (fun ch r => .cat (.cls (fun c => c == ch || c == Char.toUpper ch)) r) (.lit [])

/-- Source `kReProcedureWithoutDatabase = regexp.MustCompile("(?i)^(function|procedure) ([^.]*)$")`. -/
def kReProcedureWithoutDatabase : RE :=
  reSeq [.group 1 (.alt (litCI "function".data) (litCI "procedure".data)),
    .lit [' '], .group 2 (.star (fun c => c ≠ '.'))]

/-- Source `kReProcedureWithDatabase = regexp.MustCompile("(?i)^(function|procedure) ([^.]*)\.([^.]*)$")`. -/
def kReProcedureWithDatabase : RE :=
  reSeq [.group 1 (.alt (litCI "function".data) (litCI "procedure".data)),
    .lit [' '], .group 2 (.star (fun c => c ≠ '.')), .lit ['.'],
    .group 3 (.star (fun c => c ≠ '.'))]

end GrantModel

namespace GrantModel

/-! ## The `SHOW GRANTS` row parser (`parseGrantFromRow`) -/

/-- Cut set of `strings.Trim(s, "` + "`' " + `")` (backtick, single quote,
space) used for user/host/role names. -/
def cutTickQuoteSpace (c : Char) : Bool :=
  c == '`' || c == '\'' || c == ' '

/-- Cut set of `strings.Trim(s, "` + "`\"" + `")` (backtick, double quote)
used for database/table/callable names. -/
def cutTickDQuote (c : Char) : Bool :=
  c == '`' || c == '"'

/-- Cut set (backtick, `@`, `%`, double quote, space) used for parsed role
list entries. -/
def cutRoleChars (c : Char) : Bool :=
  c == '`' || c == '@' || c == '%' || c == '"' || c == ' '

/-- Source `parseGrantFromRow`: classify one `SHOW GRANTS` row.  `.ok none` models
the `(nil, nil)` "ignore this row" result for `REVOKE ...` rows; `.error`
models the returned parse error. -/
def parseGrantFromRow (grantStr : String) : Except String (Option MySQLGrant) :=
  if "REVOKE".data.isPrefixOf grantStr.data then .ok none
  else
    let s := grantStr.data
    let tlsOption : String :=
      match reRequire.find s with
      | some (_, caps) => String.mk (capGet caps 1)
      | none => ""
    let userOrRole? : Option UserOrRole :=
      match userHostRegex.find s with
      | some (_, caps) =>
        some (.user (trimString cutTickQuoteSpace (String.mk (capGet caps 1)))
                    (trimString cutTickQuoteSpace (String.mk (capGet caps 3))))
      | none =>
        match roleRegex.find s with
        | some (whole, _) => some (.role (trimString cutTickQuoteSpace (String.mk whole)))
        | none => none
    match userOrRole? with
    | none => .error ("failed to parse grant statement: " ++ grantStr)
    | some userOrRole =>
      match roleGrantRegex.find s with
      | some (_, caps) =>
        let roles := (splitString ',' (String.mk (capGet caps 1))).map (trimString cutRoleChars)
        .ok (some (.roleGrant roles (reGrantMatches grantStr) userOrRole tlsOption))
      | none =>
        match procedureGrantRegex.find s with
        | some (_, caps) =>
          let privileges := normalizePerms (extractPermTypes (String.mk (capGet caps 1)))
          .ok (some (.procedureGrant (trimString cutTickDQuote (String.mk (capGet caps 3)))
            (String.mk (capGet caps 2))
            (trimString cutTickDQuote (String.mk (capGet caps 3)))
            privileges (reGrantMatches grantStr) userOrRole tlsOption))
        | none =>
          match tableGrantRegex.find s with
          | some (_, caps) =>
            let privileges := normalizePerms (extractPermTypes (String.mk (capGet caps 1)))
            .ok (some (.tableGrant (trimString cutTickDQuote (String.mk (capGet caps 2)))
              (trimString cutTickDQuote (String.mk (capGet caps 3)))
              privileges (reGrantMatches grantStr) userOrRole tlsOption))
          | none => .error ("failed to parse grant statement: " ++ grantStr)

/-! ## Error classification and live-state retrieval -/

/-- Database errors as seen by the provider: a `*mysql.MySQLError` with a
numeric code and message, or any other error. -/
inductive GoError where
  | mysqlError (number : Nat) (message : String)
  | otherError (message : String)
  deriving DecidableEq, Repr

/-- The `error.Error()` text carried into wrapper messages. -/
def GoError.text : GoError → String
  | .mysqlError n m => "Error " ++ toString n ++ ": " ++ m
  | .otherError m => m

/-- Source `isNonExistingGrant`: the type assertion to `*mysql.MySQLError` (false
for `nil` and non-MySQL errors) followed by the check for the codes
1141 (ER_NONEXISTING_GRANT), 1147 (ER_NONEXISTING_TABLE_GRANT),
1403 (ER_NONEXISTING_PROC_GRANT). -/
def isNonExistingGrant : Option GoError → Bool
  | some (.mysqlError n _) => n == 1141 || n == 1147 || n == 1403
  | _ => false

/-- The row loop of `showUserGrants`: parse every row, propagate the first
parse error, skip ignored rows, and drop grants whose identity does not
render identically to the requested identity. -/
def processRows (userOrRole : UserOrRole) : List String → Except String (List MySQLGrant)
  | [] => .ok []
  | row :: rest =>
    match parseGrantFromRow row with
    | .error e => .error e
    | .ok none => processRows userOrRole rest
    | .ok (some g) =>
      if g.getUserOrRole.sqlString = userOrRole.sqlString then
        (processRows userOrRole rest).map (fun gs => g :: gs)
      else
        processRows userOrRole rest

/-- Source `showUserGrants`, with the outcome of the `SHOW GRANTS FOR ...` query
supplied as a parameter (`.error e` models `QueryContext` failing with `e`;
`.ok rows` models the returned row strings). -/
def showUserGrants (userOrRole : UserOrRole) (queryResult : Except GoError (List String)) :
    Except String (List MySQLGrant) :=
  match queryResult with
  | .error e =>
    if isNonExistingGrant (some e) then .ok []
    else .error ("showUserGrants - getting grants failed: " ++ e.text)
  | .ok rows => processRows userOrRole rows

/-! ## Reconciliation engine -/

/-- Source `hasConflictingGrants` given the live grant list: a live grant conflicts
when its grant-option flag equals the desired grant's flag and its dynamic
type (`reflect.TypeOf`) equals the desired grant's type. -/
def hasConflictingGrants (desiredGrant : MySQLGrant) (allGrants : List MySQLGrant) : Bool :=
  allGrants.any (fun dbGrant =>
    desiredGrant.grantOption == dbGrant.grantOption && desiredGrant.kind == dbGrant.kind)

/-- Source `updatePrivileges` given the old and new privilege sets from the plan
(`d.GetChange("privileges")`; set semantics, so the differences are
membership-based) and the grant entity parsed from the current data.
Returns the SQL statements executed, in order, or the error raised when a
partial revoke is required but unsupported by the variant. -/
def updatePrivileges (oldPrivs newPrivs : List String) (grant : MySQLGrant) :
    Except String (List String) :=
  let grantIfs := newPrivs.filter (fun p => ¬ p ∈ oldPrivs)
  let revokeIfs := oldPrivs.filter (fun p => ¬ p ∈ newPrivs)
  let revokePart : Except String (List String) :=
    if revokeIfs.isEmpty then .ok []
    else
      match grant.sqlRevokeSubsetStatement revokeIfs with
      | some stmt => .ok [stmt]
      | none => .error "grant does not support partial privilege revokes"
  revokePart.map (fun stmts =>
    stmts ++ (if grantIfs.isEmpty then [] else [grant.sqlGrantStatement]))

/-- The matching loop of `ImportGrant`: first live grant whose grant-option
flag equals the requested flag and whose rendered database/table (when the
variant exposes them) equal the respective import-key segments (a variant
without the accessor matches only an empty segment). -/
def importMatchLoop (grantOption : Bool) (database table : String) :
    List MySQLGrant → Option MySQLGrant
  | [] => none
  | grant :: rest =>
    if grant.grantOption != grantOption then
      importMatchLoop grantOption database table rest
    else if (match grant.getDatabase? with
             | none => database != ""
             | some db => db != database : Bool) then
      importMatchLoop grantOption database table rest
    else if (match grant.getTable? with
             | none => table != ""
             | some tbl => tbl != table : Bool) then
      importMatchLoop grantOption database table rest
    else
      some grant

/-- Source `ImportGrant` with the live grants of the identity supplied as a
parameter: split the import identifier on `@` (4 segments set the
grant-option filter to false, 5 to true; any other count is a format
error), then scan the live grants.  `.ok none` models the empty
`[]*schema.ResourceData` result when nothing matches. -/
def importGrant (id : String) (grants : List MySQLGrant) :
    Except String (Option MySQLGrant) :=
  match splitString '@' id with
  | [_, _, database, table] => .ok (importMatchLoop false database table grants)
  | [_, _, database, table, _] => .ok (importMatchLoop true database table grants)
  | _ => .error ("wrong ID format " ++ id ++
      " - expected user@host@database@table (and optionally ending @ to signify grant option) where some parts can be empty)")

end GrantModel

namespace GrantModel

/-! ## Declared-configuration constructor and resource operations -/

/-- The declared-configuration fields consumed by `parseResourceFromData`
(already validated primitives; `host` carries the schema default
"localhost" when not set, `GetOk` reports a string field as present exactly
when it is non-empty and the `roles` set as present exactly when it is
non-empty). -/
structure ResourceData where
  user : String
  host : String
  role : String
  database : String
  table : String
  privileges : List String
  roles : List String
  grant : Bool
  tlsOption : String
  deriving DecidableEq, Repr

/-- Source `parseResourceFromData`: identity validation, then variant selection
(`roles` present → role grant; `database` matching a FUNCTION/PROCEDURE
pattern → procedure grant; otherwise table grant). -/
def parseResourceFromData (d : ResourceData) : Except String MySQLGrant :=
  let userOrRole? : Option UserOrRole :=
    if d.user ≠ "" ∧ d.host ≠ "" then some (.user d.user d.host)
    else if d.role ≠ "" then some (.role d.role)
    else none
  match userOrRole? with
  | none => .error "One of user/host or role is required"
  | some userOrRole =>
    if d.roles ≠ [] then
      .ok (.roleGrant d.roles d.grant userOrRole d.tlsOption)
    else
      match kReProcedureWithDatabase.matchFull d.database.data with
      | some caps =>
        .ok (.procedureGrant (String.mk (capGet caps 2)) (String.mk (capGet caps 1))
          (String.mk (capGet caps 3)) (normalizePerms d.privileges) d.grant userOrRole
          d.tlsOption)
      | none =>
        match kReProcedureWithoutDatabase.matchFull d.database.data with
        | some caps =>
          .ok (.procedureGrant (String.mk (capGet caps 2)) (String.mk (capGet caps 1))
            d.table (normalizePerms d.privileges) d.grant userOrRole d.tlsOption)
        | none =>
          .ok (.tableGrant d.database d.table (normalizePerms d.privileges) d.grant
            userOrRole d.tlsOption)

/-- Outcome of a resource operation: the diag error returned, the Go
runtime panic (nil-interface method call), or success together with the SQL
statements executed, in order. -/
inductive OpOutcome where
  | success (statements : List String)
  | failure (msg : String)
  | panicked
  deriving DecidableEq, Repr

/-- Source `CreateGrant`, with role support and the result of
`showUserGrants` supplied as parameters.  Note the source (line 420) tests
the stale `err` from `getDatabaseFromMeta` instead of `diagErr` after
`parseResourceFromData`, so on a validation failure it does not return the
diagnostic: it proceeds with a nil `grant` and the first method call on the
nil interface (`grant.GetUserOrRole()` inside `hasConflictingGrants`)
panics, which `.panicked` models. -/
def createGrant (d : ResourceData) (hasRolesSupport : Bool)
    (showResult : Except String (List MySQLGrant)) : OpOutcome :=
  match parseResourceFromData d with
  | .error _diagErr => .panicked
  | .ok grant =>
    if grant.kind == 2 && !hasRolesSupport then
      .failure "role grants are not supported by this version of MySQL"
    else
      match showResult with
      | .error e => .failure ("failed showing grants: showGrant - getting all grants failed: " ++ e)
      | .ok allGrants =>
        if hasConflictingGrants grant allGrants then
          .failure ("user/role " ++ grant.getUserOrRole.goFormat ++
            " already has unmanaged grant - import it first")
        else
          .success [grant.sqlGrantStatement]

/-- Source `DeleteGrant`, with the outcome of executing the revoke statement
supplied as a parameter (`none` = no error).  The same stale-`err` test as
in `CreateGrant` (line 552) means a validation failure panics at
`grant.SQLRevokeStatement()` instead of returning the diagnostic.  A
"nonexistent grant" execution error is swallowed: the delete reports
success. -/
def deleteGrant (d : ResourceData) (execErr : Option GoError) : OpOutcome :=
  match parseResourceFromData d with
  | .error _diagErr => .panicked
  | .ok grant =>
    match execErr with
    | none => .success [grant.sqlRevokeStatement]
    | some e =>
      if isNonExistingGrant (some e) then .success [grant.sqlRevokeStatement]
      else .failure ("error revoking ALL (" ++ grant.sqlRevokeStatement ++ "): " ++ e.text)

end GrantModel

namespace GrantModel

/-- Reference counter for the tokenizer: the number of commas of `g` that
occur outside a parenthesized column list, tracking the parenthesis state
as the same single boolean as `extractPermTypes`. -/
def outsideCommas : List Char → Bool → Nat
  | [], _ => 0
  | c :: rest, inPar =>
    if c = ',' then
      (if inPar then 0 else 1) + outsideCommas rest inPar
    else if c = '(' then outsideCommas rest true
    else if c = ')' then outsideCommas rest false
    else outsideCommas rest inPar

end GrantModel

deriving instance DecidableEq for Except

namespace GrantModel

/-! ## Helper lemmas: characters -/

theorem char_toNat_inj {c d : Char} (h : c.toNat = d.toNat) : c = d :=
  Char.ext (UInt32.ext h)

theorem toNat_toUpper_of_lower (c : Char) (h1 : 97 ≤ c.toNat) (h2 : c.toNat ≤ 122) :
    (c.toUpper).toNat = c.toNat - 32 := by
  simp only [Char.toUpper]
  rw [if_pos (by omega)]
  have hv : (c.toNat - 32).isValidChar := by
    constructor
    omega
  rw [Char.ofNat, dif_pos hv]
  simp [Char.ofNatAux, Char.toNat, UInt32.toNat, BitVec.toNat_ofNatLt]

theorem toUpper_eq_self (c : Char) (h : ¬ (97 ≤ c.toNat ∧ c.toNat ≤ 122)) :
    c.toUpper = c := by
  simp only [Char.toUpper]
  rw [if_neg h]

theorem toUpper_toUpper (c : Char) : c.toUpper.toUpper = c.toUpper := by
  by_cases h : 97 ≤ c.toNat ∧ c.toNat ≤ 122
  · have := toNat_toUpper_of_lower c h.1 h.2
    apply toUpper_eq_self
    omega
  · rw [toUpper_eq_self c h, toUpper_eq_self c h]

theorem isSpaceOrBacktick_iff (c : Char) :
    isSpaceOrBacktick c = true ↔ c.toNat = 32 ∨ c.toNat = 96 := by
  unfold isSpaceOrBacktick
  simp only [Bool.or_eq_true, beq_iff_eq]
  constructor
  · rintro (rfl | rfl) <;> simp
  · rintro (h | h)
    · left
      exact char_toNat_inj h
    · right
      exact char_toNat_inj h

theorem isSpaceOrBacktick_toUpper (c : Char) (h : isSpaceOrBacktick c = false) :
    isSpaceOrBacktick c.toUpper = false := by
  by_cases hl : 97 ≤ c.toNat ∧ c.toNat ≤ 122
  · have h2 := toNat_toUpper_of_lower c hl.1 hl.2
    rw [← Bool.not_eq_true, isSpaceOrBacktick_iff]
    omega
  · rwa [toUpper_eq_self c hl]

end GrantModel

namespace GrantModel

/-! ## Helper lemmas: list utilities -/

theorem strip_of_clean {l : List Char} (h : ∀ c ∈ l, isSpaceOrBacktick c = false) :
    stripSpacesBackticks l = l := by
  apply List.filter_eq_self.mpr
  intro c hc
  simp [h c hc]

theorem upper_of_fixed {l : List Char} (h : ∀ c ∈ l, c.toUpper = c) :
    upperChars l = l := by
  unfold upperChars
  rw [List.map_congr_left h]
  simp

theorem upper_mem_fixed {l : List Char} {c : Char} (h : c ∈ upperChars l) :
    c.toUpper = c := by
  obtain ⟨d, _, rfl⟩ := List.mem_map.mp h
  exact toUpper_toUpper d

theorem strip_upper_clean {l : List Char} {c : Char}
    (h : c ∈ upperChars (stripSpacesBackticks l)) : isSpaceOrBacktick c = false := by
  obtain ⟨d, hd, rfl⟩ := List.mem_map.mp h
  have hdc : isSpaceOrBacktick d = false := by
    have := List.of_mem_filter hd
    simpa using this
  exact isSpaceOrBacktick_toUpper d hdc

theorem splitOnChar_ne_nil (sep : Char) (l : List Char) : splitOnChar sep l ≠ [] := by
  induction l with
  | nil => simp [splitOnChar]
  | cons c rest ih =>
    unfold splitOnChar
    by_cases h : c = sep
    · simp [h]
    · simp only [if_neg h]
      cases hr : splitOnChar sep rest with
      | nil => simp
      | cons p ps => simp

theorem mem_splitOnChar_not_sep {sep : Char} {l : List Char} {p : List Char}
    (hp : p ∈ splitOnChar sep l) : sep ∉ p := by
  induction l generalizing p with
  | nil =>
    simp [splitOnChar] at hp
    simp [hp]
  | cons c rest ih =>
    unfold splitOnChar at hp
    by_cases h : c = sep
    · rw [if_pos h] at hp
      rcases List.mem_cons.mp hp with h1 | h1
      · simp [h1]
      · exact ih h1
    · rw [if_neg h] at hp
      cases hr : splitOnChar sep rest with
      | nil => exact absurd hr (splitOnChar_ne_nil sep rest)
      | cons q qs =>
        rw [hr] at hp
        rcases List.mem_cons.mp hp with h1 | h1
        · subst h1
          intro hmem
          rcases List.mem_cons.mp hmem with h2 | h2
          · exact h h2.symm
          · exact ih (hr ▸ List.mem_cons_self q qs) h2
        · exact ih (hr ▸ List.mem_cons.mpr (Or.inr h1))

theorem mem_of_mem_splitOnChar {sep : Char} {l p : List Char} {c : Char}
    (hp : p ∈ splitOnChar sep l) (hc : c ∈ p) : c ∈ l := by
  induction l generalizing p with
  | nil =>
    simp [splitOnChar] at hp
    subst hp
    simp at hc
  | cons d rest ih =>
    unfold splitOnChar at hp
    by_cases h : d = sep
    · rw [if_pos h] at hp
      rcases List.mem_cons.mp hp with h1 | h1
      · subst h1
        simp at hc
      · exact List.mem_cons.mpr (Or.inr (ih h1 hc))
    · rw [if_neg h] at hp
      cases hr : splitOnChar sep rest with
      | nil => exact absurd hr (splitOnChar_ne_nil sep rest)
      | cons q qs =>
        rw [hr] at hp
        rcases List.mem_cons.mp hp with h1 | h1
        · subst h1
          rcases List.mem_cons.mp hc with h2 | h2
          · exact List.mem_cons.mpr (Or.inl h2)
          · exact List.mem_cons.mpr (Or.inr (ih (hr ▸ List.mem_cons_self q qs) h2))
        · exact List.mem_cons.mpr (Or.inr (ih (hr ▸ List.mem_cons.mpr (Or.inr h1)) hc))

theorem splitOnChar_no_sep {sep : Char} {l : List Char} (h : sep ∉ l) :
    splitOnChar sep l = [l] := by
  induction l with
  | nil => rfl
  | cons c rest ih =>
    have hc : c ≠ sep := fun he => h (he ▸ List.mem_cons_self c rest)
    have hrest : sep ∉ rest := fun hm => h (List.mem_cons.mpr (Or.inr hm))
    unfold splitOnChar
    rw [if_neg hc, ih hrest]

theorem splitOnChar_cons_sep (sep : Char) (t : List Char) :
    splitOnChar sep (sep :: t) = [] :: splitOnChar sep t := by
  conv_lhs => rw [splitOnChar]
  rw [if_pos rfl]

theorem splitOnChar_cons_ne {sep c : Char} (t : List Char) (h : c ≠ sep) :
    splitOnChar sep (c :: t) =
      (match splitOnChar sep t with
       | p :: ps => (c :: p) :: ps
       | [] => [[c]]) := by
  conv_lhs => rw [splitOnChar]
  rw [if_neg h]

theorem splitOnChar_append_sep {sep : Char} {p t : List Char} (h : sep ∉ p) :
    splitOnChar sep (p ++ sep :: t) = p :: splitOnChar sep t := by
  induction p with
  | nil =>
    rw [List.nil_append, splitOnChar_cons_sep]
  | cons c rest ih =>
    have hc : c ≠ sep := fun he => h (he ▸ List.mem_cons_self c rest)
    have hrest : sep ∉ rest := fun hm => h (List.mem_cons.mpr (Or.inr hm))
    rw [List.cons_append, splitOnChar_cons_ne _ hc, ih hrest]

theorem splitOnChar_joinSep {sep : Char} {ps : List (List Char)}
    (h : ∀ p ∈ ps, sep ∉ p) (hne : ps ≠ []) :
    splitOnChar sep (joinSep [sep] ps) = ps := by
  induction ps with
  | nil => exact absurd rfl hne
  | cons p rest ih =>
    cases rest with
    | nil =>
      simp only [joinSep]
      exact splitOnChar_no_sep (h p (List.mem_cons_self p []))
    | cons q qs =>
      have hjoin : joinSep [sep] (p :: q :: qs) = p ++ sep :: joinSep [sep] (q :: qs) := by
        simp [joinSep]
      rw [hjoin, splitOnChar_append_sep (h p (List.mem_cons_self p _)),
        ih (fun r hr => h r (List.mem_cons.mpr (Or.inr hr))) (by simp)]

theorem mem_joinSep {sep : List Char} {ps : List (List Char)} {c : Char}
    (h : c ∈ joinSep sep ps) : c ∈ sep ∨ ∃ p ∈ ps, c ∈ p := by
  induction ps with
  | nil =>
    simp [joinSep] at h
  | cons p rest ih =>
    cases rest with
    | nil =>
      simp only [joinSep] at h
      exact Or.inr ⟨p, List.mem_cons_self p [], h⟩
    | cons q qs =>
      simp only [joinSep, List.append_assoc, List.mem_append] at h
      rcases h with h | h | h
      · exact Or.inr ⟨p, List.mem_cons_self p _, h⟩
      · exact Or.inl h
      · rcases ih h with h1 | ⟨r, hr, hcr⟩
        · exact Or.inl h1
        · exact Or.inr ⟨r, List.mem_cons.mpr (Or.inr hr), hcr⟩

theorem strip_joinSep {ps : List (List Char)}
    (h : ∀ p ∈ ps, ∀ c ∈ p, isSpaceOrBacktick c = false) :
    stripSpacesBackticks (joinSep [',', ' '] ps) = joinSep [','] ps := by
  induction ps with
  | nil => rfl
  | cons p rest ih =>
    cases rest with
    | nil =>
      simp only [joinSep]
      exact strip_of_clean (h p (List.mem_cons_self p []))
    | cons q qs =>
      have hrest := ih (fun r hr => h r (List.mem_cons.mpr (Or.inr hr)))
      simp only [joinSep] at hrest ⊢
      unfold stripSpacesBackticks at hrest ⊢
      rw [List.filter_append, List.filter_append]
      rw [List.filter_eq_self.mpr (fun c hc => by simp [h p (List.mem_cons_self p _) c hc])]
      rw [hrest]
      rfl

theorem trim_of_clean {cut : Char → Bool} {l : List Char}
    (h : ∀ c ∈ l, cut c = false) : trimChars cut l = l := by
  unfold trimChars
  have hdrop : ∀ (m : List Char), (∀ c ∈ m, cut c = false) → m.dropWhile cut = m := by
    intro m hm
    cases m with
    | nil => rfl
    | cons c rest => simp [List.dropWhile_cons, hm c (List.mem_cons_self c rest)]
  rw [hdrop l h, hdrop l.reverse (fun c hc => h c (List.mem_reverse.mp hc)), List.reverse_reverse]

end GrantModel

namespace GrantModel

/-! ## Helper lemmas: `normalizeColumnOrder` structure -/

theorem data_mk (l : List Char) : (String.mk l).data = l := rfl

theorem mk_inj {l m : List Char} (h : String.mk l = String.mk m) : l = m :=
  congrArg String.data h

theorem head_dropWhile_paren {t : List Char} {d : Char} {inner : List Char}
    (h : t.dropWhile (fun c => c ≠ '(') = d :: inner) : d = '(' := by
  induction t with
  | nil => simp [List.dropWhile] at h
  | cons c rest ih =>
    rw [List.dropWhile_cons] at h
    by_cases hc : c = '('
    · rw [if_neg (by simp [hc])] at h
      exact (List.cons.injEq _ _ _ _ ▸ h).1.symm ▸ hc ▸ rfl
    · rw [if_pos (by simp [hc])] at h
      exact ih h

end GrantModel

namespace GrantModel

/-- The matching case of the anchored regex of `normalizeColumnOrder`
(`NAME(cols)` shape: text before the first parenthesis, then the column
body, then a final closing parenthesis). -/
theorem normalizeColumnOrder_decomp (pre cols : List Char) (hpre : '(' ∉ pre) :
    normalizeColumnOrder (String.mk (pre ++ '(' :: cols ++ [')'])) =
    String.mk (pre ++ '(' :: joinSep ", ".data
      (List.insertionSort (· ≤ ·)
        ((splitOnChar ',' cols).map (trimChars isSpaceOrBacktick))) ++ [')']) := by
  have hp : ∀ c ∈ pre, (fun c => decide (c ≠ '(')) c = true := by
    intro c hc
    simp only [decide_eq_true_eq]
    exact fun he => hpre (he ▸ hc)
  have htake : (pre ++ '(' :: (cols ++ [')'])).takeWhile (fun c => c ≠ '(') = pre := by
    rw [List.takeWhile_append_of_pos hp]
    simp [List.takeWhile_cons]
  have hdrop : (pre ++ '(' :: (cols ++ [')'])).dropWhile (fun c => c ≠ '(') =
      '(' :: (cols ++ [')']) := by
    rw [List.dropWhile_append_of_pos hp]
    simp [List.dropWhile_cons]
  unfold normalizeColumnOrder
  simp only [data_mk, List.append_assoc, List.cons_append, List.nil_append] at htake hdrop ⊢
  rw [htake, hdrop]
  simp only [List.getLast?_concat, List.dropLast_concat]
  simp

end GrantModel

namespace GrantModel

theorem normalizeColumnOrder_cases (t : List Char) :
    normalizeColumnOrder (String.mk t) = String.mk t
    ∨ ∃ pre cols, t = pre ++ '(' :: cols ++ [')'] ∧ '(' ∉ pre := by
  cases hdrop : t.dropWhile (fun c => c ≠ '(') with
  | nil =>
    left
    unfold normalizeColumnOrder
    simp only [data_mk]
    rw [hdrop]
  | cons d inner =>
    have hd : d = '(' := head_dropWhile_paren hdrop
    subst hd
    by_cases hlast : inner.getLast? = some ')'
    · right
      have hne : inner ≠ [] := by
        rintro rfl
        simp at hlast
      refine ⟨t.takeWhile (fun c => c ≠ '('), inner.dropLast, ?_, ?_⟩
      · have h1 : inner = inner.dropLast ++ [')'] := by
          rw [List.getLast?_eq_getLast _ hne] at hlast
          have hl : inner.getLast hne = ')' := by
            simpa using hlast
          conv_lhs => rw [← List.dropLast_append_getLast hne, hl]
        conv_lhs => rw [← List.takeWhile_append_dropWhile (p := fun c => decide (c ≠ '(')) (l := t),
          hdrop]
        simpa [List.cons_append] using
          congrArg (fun x => List.takeWhile (fun c => decide (c ≠ '(')) t ++ '(' :: x) h1
      · intro hmem
        have := List.mem_takeWhile_imp hmem
        simp at this
    · left
      unfold normalizeColumnOrder
      simp only [data_mk]
      rw [hdrop]
      simp [hlast]

end GrantModel

namespace GrantModel

theorem normalizePerm1_of_clean (t : List Char)
    (hbad : ∀ c ∈ t, isSpaceOrBacktick c = false)
    (hup : ∀ c ∈ t, c.toUpper = c)
    (hne : String.mk t ≠ "ALL") (hne2 : String.mk t ≠ "ALLPRIVILEGES") :
    normalizePerm1 (String.mk t) = normalizeColumnOrder (String.mk t) := by
  unfold normalizePerm1
  simp only [data_mk]
  rw [strip_of_clean hbad, upper_of_fixed hup]
  rw [if_neg (by push_neg; exact ⟨hne, hne2⟩)]

theorem mk_ne_ALL_of_paren {l : List Char} (h : '(' ∈ l) :
    String.mk l ≠ "ALL" ∧ String.mk l ≠ "ALLPRIVILEGES" := by
  constructor
  · intro he
    have := mk_inj (m := "ALL".data) he
    rw [this] at h
    simp at h
  · intro he
    have := mk_inj (m := "ALLPRIVILEGES".data) he
    rw [this] at h
    simp at h

end GrantModel

namespace GrantModel

theorem colOrder_fix (t : List Char)
    (hbad : ∀ c ∈ t, isSpaceOrBacktick c = false)
    (hup : ∀ c ∈ t, c.toUpper = c)
    (hne : String.mk t ≠ "ALL") (hne2 : String.mk t ≠ "ALLPRIVILEGES") :
    normalizePerm1 (normalizeColumnOrder (String.mk t)) = normalizeColumnOrder (String.mk t) := by
  rcases normalizeColumnOrder_cases t with h | ⟨pre, cols, rfl, hpre⟩
  · rw [h, normalizePerm1_of_clean t hbad hup hne hne2, h]
  · rw [normalizeColumnOrder_decomp pre cols hpre]
    set parts := (splitOnChar ',' cols).map (trimChars isSpaceOrBacktick) with hparts
    set SP := List.insertionSort (· ≤ ·) parts with hSP
    have hcols_bad : ∀ c ∈ cols, isSpaceOrBacktick c = false := by
      intro c hc
      exact hbad c (by simp [hc])
    have hcols_up : ∀ c ∈ cols, c.toUpper = c := by
      intro c hc
      exact hup c (by simp [hc])
    have hpre_bad : ∀ c ∈ pre, isSpaceOrBacktick c = false := by
      intro c hc
      exact hbad c (by simp [hc])
    have hpre_up : ∀ c ∈ pre, c.toUpper = c := by
      intro c hc
      exact hup c (by simp [hc])
    have htrim : parts = splitOnChar ',' cols := by
      rw [hparts]
      conv_rhs => rw [← List.map_id (splitOnChar ',' cols)]
      apply List.map_congr_left
      intro p hp
      exact trim_of_clean (fun c hc => hcols_bad c (mem_of_mem_splitOnChar hp hc))
    have hSPmem : ∀ p ∈ SP, p ∈ splitOnChar ',' cols := by
      intro p hp
      have : p ∈ parts := (List.mem_insertionSort _).mp hp
      rwa [htrim] at this
    have hSP_bad : ∀ p ∈ SP, ∀ c ∈ p, isSpaceOrBacktick c = false :=
      fun p hp c hc => hcols_bad c (mem_of_mem_splitOnChar (hSPmem p hp) hc)
    have hSP_up : ∀ p ∈ SP, ∀ c ∈ p, c.toUpper = c :=
      fun p hp c hc => hcols_up c (mem_of_mem_splitOnChar (hSPmem p hp) hc)
    have hSP_nocomma : ∀ p ∈ SP, ',' ∉ p := fun p hp => mem_splitOnChar_not_sep (hSPmem p hp)
    have hSP_ne : SP ≠ [] := by
      rw [hSP]
      intro h0
      have hlen := List.length_insertionSort (· ≤ ·) parts
      rw [h0] at hlen
      have : parts = [] := List.length_eq_zero.mp hlen.symm
      rw [htrim] at this
      exact splitOnChar_ne_nil ',' cols this
    show normalizePerm1 (String.mk (pre ++ '(' :: joinSep [',', ' '] SP ++ [')'])) =
      String.mk (pre ++ '(' :: joinSep [',', ' '] SP ++ [')'])
    have hstrip : stripSpacesBackticks (pre ++ '(' :: joinSep [',', ' '] SP ++ [')']) =
        pre ++ '(' :: joinSep [','] SP ++ [')'] := by
      have h1 : stripSpacesBackticks pre = pre := strip_of_clean hpre_bad
      have h2 : stripSpacesBackticks (joinSep [',', ' '] SP) = joinSep [','] SP :=
        strip_joinSep hSP_bad
      unfold stripSpacesBackticks at h1 h2 ⊢
      simp only [List.cons_append, List.append_assoc, List.filter_append, List.filter_cons,
        List.filter_nil] at h1 h2 ⊢
      rw [h1, h2]
      have hp1 : (¬ '(' = ' ' ∧ ¬ '(' = '`') := by decide
      have hp2 : (¬ ')' = ' ' ∧ ¬ ')' = '`') := by decide
      norm_num [isSpaceOrBacktick]
      rw [if_pos hp2, if_pos hp1]
    have hupR : ∀ c ∈ pre ++ '(' :: joinSep [','] SP ++ [')'], c.toUpper = c := by
      intro c hc
      simp only [List.cons_append, List.append_assoc, List.mem_append, List.mem_cons,
        List.mem_singleton] at hc
      rcases hc with h | h | h | h
      · exact hpre_up c h
      · subst h
        decide
      · rcases mem_joinSep h with h1 | ⟨p, hp, hcp⟩
        · have h2 : c = ',' := by simpa using h1
          subst h2
          decide
        · exact hSP_up p hp c hcp
      · have h2 : c = ')' := by simpa using h
        subst h2
        decide
    have hparenR : '(' ∈ pre ++ '(' :: joinSep [','] SP ++ [')'] := by
      simp
    unfold normalizePerm1
    simp only [data_mk]
    rw [hstrip, upper_of_fixed hupR]
    rw [if_neg (by
      push_neg
      exact mk_ne_ALL_of_paren hparenR)]
    have hdecomp2 := normalizeColumnOrder_decomp pre (joinSep [','] SP) hpre
    rw [hdecomp2]
    have hsplit2 : splitOnChar ',' (joinSep [','] SP) = SP :=
      splitOnChar_joinSep hSP_nocomma hSP_ne
    have htrim2 : SP.map (trimChars isSpaceOrBacktick) = SP := by
      conv_rhs => rw [← List.map_id SP]
      apply List.map_congr_left
      intro p hp
      exact trim_of_clean (hSP_bad p hp)
    have hsorted : List.Sorted (· ≤ ·) SP := by
      rw [hSP]
      exact List.sorted_insertionSort _ parts
    rw [hsplit2, htrim2, hsorted.insertionSort_eq]

end GrantModel

namespace GrantModel

theorem normalizePerm1_fix (x : String) :
    normalizePerm1 (normalizePerm1 x) = normalizePerm1 x := by
  by_cases halias : String.mk (upperChars (stripSpacesBackticks x.data)) = "ALL"
      ∨ String.mk (upperChars (stripSpacesBackticks x.data)) = "ALLPRIVILEGES"
  · have h1 : normalizePerm1 x = "ALL PRIVILEGES" := by
      unfold normalizePerm1
      simp only [data_mk]
      rw [if_pos halias]
      decide
    rw [h1]
    decide
  · have h1 : normalizePerm1 x =
        normalizeColumnOrder (String.mk (upperChars (stripSpacesBackticks x.data))) := by
      unfold normalizePerm1
      simp only [data_mk]
      rw [if_neg halias]
    rw [h1]
    push_neg at halias
    exact colOrder_fix _ (fun c hc => strip_upper_clean hc)
      (fun c hc => upper_mem_fixed hc) halias.1 halias.2

theorem normalizePerms_idem_aux (P : List String) :
    normalizePerms (normalizePerms P) = normalizePerms P := by
  unfold normalizePerms removeUselessPerms
  have key : ∀ y ∈ (P.map normalizePerm1).filter (fun g => g ≠ "USAGE"),
      normalizePerm1 y = y := by
    intro y hy
    have hy' := List.mem_of_mem_filter hy
    obtain ⟨x, _, rfl⟩ := List.mem_map.mp hy'
    exact normalizePerm1_fix x
  rw [List.map_congr_left key]
  simp only [List.map_id']
  apply List.filter_eq_self.mpr
  intro a ha
  exact (List.mem_filter.mp ha).2

end GrantModel

namespace GrantModel

/-! ## Helper lemmas: the tokenizer -/

theorem headD_append_single (cur : List Char) (c d : Char) :
    (cur ++ [c]).headD d = cur.headD c := by
  cases cur <;> rfl

theorem extractPermTypesAux_length (s : List Char) :
    ∀ (inPar : Bool) (cur : List Char),
    (extractPermTypesAux s inPar cur).length = outsideCommas s inPar + 1 := by
  induction s with
  | nil =>
    intro inPar cur
    rfl
  | cons c rest ih =>
    intro inPar cur
    unfold extractPermTypesAux outsideCommas
    by_cases hc : c = ','
    · by_cases hp : inPar
      · simp [hc, hp, ih]
      · simp [hc, hp, ih]
        omega
    · by_cases h1 : c = '('
      · simp [hc, h1, ih]
      · by_cases h2 : c = ')'
        · simp [hc, h1, h2, ih]
        · by_cases h3 : c.isWhitespace ∧ cur = []
          · simp [hc, h1, h2, h3, ih]
          · simp [hc, h1, h2, h3, ih]

theorem extractPermTypesAux_no_leading_ws (s : List Char) :
    ∀ (inPar : Bool) (cur : List Char),
    (cur.headD '!').isWhitespace = false →
    ∀ t ∈ extractPermTypesAux s inPar cur, (t.headD '!').isWhitespace = false := by
  induction s with
  | nil =>
    intro inPar cur hcur t ht
    simp [extractPermTypesAux] at ht
    subst ht
    exact hcur
  | cons c rest ih =>
    intro inPar cur hcur t ht
    unfold extractPermTypesAux at ht
    by_cases hc : c = ','
    · subst hc
      rw [if_pos rfl] at ht
      by_cases hp : inPar
      · rw [if_pos hp] at ht
        refine ih inPar (cur ++ [',']) ?_ t ht
        rw [headD_append_single]
        cases cur with
        | nil => decide
        | cons x xs => exact hcur
      · rw [if_neg hp] at ht
        rcases List.mem_cons.mp ht with rfl | ht
        · exact hcur
        · exact ih inPar [] (by decide) t ht
    · rw [if_neg hc] at ht
      by_cases h1 : c = '('
      · subst h1
        rw [if_pos rfl] at ht
        refine ih true (cur ++ ['(']) ?_ t ht
        rw [headD_append_single]
        cases cur with
        | nil => decide
        | cons x xs => exact hcur
      · rw [if_neg h1] at ht
        by_cases h2 : c = ')'
        · subst h2
          rw [if_pos rfl] at ht
          refine ih false (cur ++ [')']) ?_ t ht
          rw [headD_append_single]
          cases cur with
          | nil => decide
          | cons x xs => exact hcur
        · rw [if_neg h2] at ht
          by_cases h3 : c.isWhitespace ∧ cur = []
          · rw [if_pos h3] at ht
            exact ih inPar cur hcur t ht
          · rw [if_neg h3] at ht
            refine ih inPar (cur ++ [c]) ?_ t ht
            rw [headD_append_single]
            cases cur with
            | nil =>
              simp only [List.headD]
              rcases not_and_or.mp h3 with h | h
              · simpa using h
              · simp at h
            | cons x xs => exact hcur

end GrantModel

namespace GrantModel

/-! ## Claims -/

/-- Claim C1 — counterexample.  For the table grant `G` of the claim
(database "app", table "users", privileges SELECT/INSERT, identity
`'bob'@'%'`, no grant option) the generator produces exactly the claimed
statement, but parsing that exact string back does **not** yield a grant
structurally equal to `G`: the claim, as stated, is false on the code. -/
theorem C1_counterexample :
    (MySQLGrant.tableGrant "app" "users" ["SELECT", "INSERT"] false
      (.user "bob" "%") "").sqlGrantStatement =
      "GRANT SELECT, INSERT ON `app`.`users` TO 'bob'@'%'"
    ∧ parseGrantFromRow "GRANT SELECT, INSERT ON `app`.`users` TO 'bob'@'%'" ≠
      .ok (some (MySQLGrant.tableGrant "app" "users" ["SELECT", "INSERT"] false
        (.user "bob" "%") "")) := by
  exact ⟨by decide, by decide⟩

/-- Claim C1 (amended) — the generator produces exactly
``GRANT SELECT, INSERT ON `app`.`users` TO 'bob'@'%'``, and parsing that
string back yields a table grant with the claimed privileges, grant-option
flag and identity, but whose object reference is **not** split on the dot:
the whole reference (with only the outer backticks trimmed) lands in the
database field, and the identity text lands in the table field. -/
theorem C1_roundtrip_amended :
    (MySQLGrant.tableGrant "app" "users" ["SELECT", "INSERT"] false
      (.user "bob" "%") "").sqlGrantStatement =
      "GRANT SELECT, INSERT ON `app`.`users` TO 'bob'@'%'"
    ∧ parseGrantFromRow "GRANT SELECT, INSERT ON `app`.`users` TO 'bob'@'%'" =
      .ok (some (MySQLGrant.tableGrant "app`.`users" "'bob'@'%'" ["SELECT", "INSERT"] false
        (.user "bob" "%") "")) := by
  exact ⟨by decide, by decide⟩

/-- Claim C2 — counterexample.  The role-membership pattern's character class
`[\w\s,]` does not admit single quotes, so parsing
`GRANT 'editor', 'viewer' TO 'bob'@'%'` fails with a parse error instead of
yielding the claimed role-membership grant. -/
theorem C2_counterexample :
    parseGrantFromRow "GRANT 'editor', 'viewer' TO 'bob'@'%'" =
      .error "failed to parse grant statement: GRANT 'editor', 'viewer' TO 'bob'@'%'"
    ∧ parseGrantFromRow "GRANT 'editor', 'viewer' TO 'bob'@'%'" ≠
      .ok (some (MySQLGrant.roleGrant ["editor", "viewer"] false (.user "bob" "%") "")) := by
  exact ⟨by decide, by decide⟩

/-- Claim C2 (amended) — the role-membership pattern only matches when the
comma-list consists of word/space/comma characters (no quotes): the quoted
line of the claim fails to parse, while the unquoted line
`GRANT editor, viewer TO 'bob'@'%'` yields the claimed role-membership
grant (roles trimmed, grant option false, identity `'bob'@'%'`). -/
theorem C2_role_parsing_amended :
    parseGrantFromRow "GRANT 'editor', 'viewer' TO 'bob'@'%'" =
      .error "failed to parse grant statement: GRANT 'editor', 'viewer' TO 'bob'@'%'"
    ∧ parseGrantFromRow "GRANT editor, viewer TO 'bob'@'%'" =
      .ok (some (MySQLGrant.roleGrant ["editor", "viewer"] false (.user "bob" "%") "")) := by
  exact ⟨by decide, by decide⟩

end GrantModel

namespace GrantModel

/-- Claim C3 — counterexample.  The import key `bob@%@app@users` does **not**
match a live table grant with database "app", table "users" and
grant-option false: the matching loop compares the backtick-rendered
`GetDatabase()`/`GetTable()` (`` `app` ``/`` `users` ``) against the raw key
segments, so the scan finds nothing and import returns the empty result. -/
theorem C3_counterexample :
    importGrant "bob@%@app@users"
      [MySQLGrant.tableGrant "app" "users" ["SELECT"] false (.user "bob" "%") ""] = .ok none
    ∧ importGrant "bob@%@app@users"
        [MySQLGrant.tableGrant "app" "users" ["SELECT"] false (.user "bob" "%") ""] ≠
      .ok (some (MySQLGrant.tableGrant "app" "users" ["SELECT"] false (.user "bob" "%") "")) := by
  exact ⟨by decide, by decide⟩

/-- Claim C3 (amended) — import matching compares the backtick-rendered
database/table names with the key segments, so only the key
``bob@%@`app`@`users` `` matches a live grant with database "app" and table
"users".  With that key, a live grant with grant-option true or with a
different table is skipped and the first matching grant is returned; the
raw key `bob@%@app@users` matches nothing; and no match yields the empty
result, not an error. -/
theorem C3_import_matching_amended :
    importGrant "bob@%@`app`@`users`"
      [MySQLGrant.tableGrant "app" "users" ["SELECT"] true (.user "bob" "%") "",
       MySQLGrant.tableGrant "app" "orders" ["SELECT"] false (.user "bob" "%") "",
       MySQLGrant.tableGrant "app" "users" ["SELECT"] false (.user "bob" "%") ""] =
      .ok (some (MySQLGrant.tableGrant "app" "users" ["SELECT"] false (.user "bob" "%") ""))
    ∧ importGrant "bob@%@app@users"
        [MySQLGrant.tableGrant "app" "users" ["SELECT"] false (.user "bob" "%") ""] = .ok none
    ∧ importGrant "bob@%@`app`@`users`" [] = .ok none := by
  exact ⟨by decide, by decide, by decide⟩

/-- Claim C7 — the validation failure is real (`parseResourceFromData` returns
the claimed error), but `CreateGrant`/`DeleteGrant` test the stale `err`
variable from `getDatabaseFromMeta` instead of the parse diagnostic, so on
the failing input they do not return the error: they proceed with a nil
grant and panic at the first method call on it (no SQL is executed, but the
failure is a crash, not a returned error). -/
theorem C7_validation_bug :
    parseResourceFromData ⟨"", "localhost", "", "app", "*", ["SELECT"], [], false, "NONE"⟩ =
      .error "One of user/host or role is required"
    ∧ createGrant ⟨"", "localhost", "", "app", "*", ["SELECT"], [], false, "NONE"⟩ true
        (.ok []) = .panicked
    ∧ deleteGrant ⟨"", "localhost", "", "app", "*", ["SELECT"], [], false, "NONE"⟩ none =
      .panicked := by
  exact ⟨by decide, by decide, by decide⟩

/-- Claim C8 — counterexample.  The login pattern `'([^']*)'(@'([^']*)')?` has
an optional host part, so it matches a bare single-quoted name too: a row
whose identity text is `'webapp'` (no `@'host'`) parses to a grant owned by
a **login** identity with empty host, not a role identity. -/
theorem C8_counterexample :
    parseGrantFromRow "GRANT SELECT ON `app`.`users` TO 'webapp'" =
      .ok (some (MySQLGrant.tableGrant "app`.`users" "'webapp'" ["SELECT"] false
        (.user "webapp" "") ""))
    ∧ (MySQLGrant.tableGrant "app`.`users" "'webapp'" ["SELECT"] false
        (.user "webapp" "") "").getUserOrRole = .user "webapp" ""
    ∧ parseGrantFromRow "GRANT SELECT ON `app`.`users` TO 'webapp'" ≠
      .ok (some (MySQLGrant.tableGrant "app`.`users" "'webapp'" ["SELECT"] false
        (.role "webapp") "")) := by
  exact ⟨by decide, by decide, by decide⟩

/-- Claim C8 (amended) — identity extraction tries the login pattern first,
whose host part is optional, so any single-quoted name matches it: a bare
quoted name yields a login identity with empty host (the bare-role branch
is unreachable), a `'name'@'host'` text yields the full login identity, and
a row with no quoted name at all fails to parse. -/
theorem C8_identity_extraction_amended :
    parseGrantFromRow "GRANT SELECT ON `app`.`users` TO 'webapp'" =
      .ok (some (MySQLGrant.tableGrant "app`.`users" "'webapp'" ["SELECT"] false
        (.user "webapp" "") ""))
    ∧ parseGrantFromRow "GRANT SELECT ON `db`.* TO 'alice'@'10.0.0.1'" =
      .ok (some (MySQLGrant.tableGrant "db`.*" "'alice'@'10.0.0.1'" ["SELECT"] false
        (.user "alice" "10.0.0.1") ""))
    ∧ parseGrantFromRow "GRANT SELECT ON `app`.`users` TO webapp" =
      .error "failed to parse grant statement: GRANT SELECT ON `app`.`users` TO webapp" := by
  exact ⟨by decide, by decide, by decide⟩

end GrantModel

namespace GrantModel

/-- Claim C4 — the update engine computes `added = new − old` and
`removed = old − new` (set semantics over the privilege sets); a non-empty
`removed` yields exactly one partial-revoke statement covering exactly the
removed privileges, a non-empty `added` yields exactly one full grant
statement carrying the entity's complete current privilege list, and the
role-membership variant (which does not support partial revokes) makes the
engine fail with an error.  Instantiated at the claim's diff scenario. -/
theorem C4_update_privileges :
    (∀ (oldPrivs newPrivs : List String) (db tbl : String) (privs : List String)
        (g : Bool) (u : UserOrRole) (tls : String),
      updatePrivileges oldPrivs newPrivs (.tableGrant db tbl privs g u tls) =
        .ok ((if (oldPrivs.filter (fun p => ¬ p ∈ newPrivs)).isEmpty then []
              else ["REVOKE " ++ joinStrings ", " (oldPrivs.filter (fun p => ¬ p ∈ newPrivs)) ++
                " ON " ++ getDatabaseRendered db ++ "." ++ getTableRendered tbl ++ " FROM " ++
                u.sqlString ++ (if g then " WITH GRANT OPTION" else "")]) ++
             (if (newPrivs.filter (fun p => ¬ p ∈ oldPrivs)).isEmpty then []
              else ["GRANT " ++ joinStrings ", " privs ++ " ON " ++ getDatabaseRendered db ++
                "." ++ getTableRendered tbl ++ " TO " ++ u.sqlString ++ requireSuffix tls ++
                (if g then " WITH GRANT OPTION" else "")])))
    ∧ updatePrivileges ["SELECT", "INSERT"] ["SELECT", "UPDATE"]
        (.tableGrant "app" "users" ["SELECT", "UPDATE"] false (.user "bob" "%") "") =
      .ok ["REVOKE INSERT ON `app`.`users` FROM 'bob'@'%'",
        "GRANT SELECT, UPDATE ON `app`.`users` TO 'bob'@'%'"]
    ∧ updatePrivileges ["SELECT"] [] (.roleGrant ["editor"] false (.user "bob" "%") "") =
      .error "grant does not support partial privilege revokes" := by
  refine ⟨?_, by decide, by decide⟩
  intro oldPrivs newPrivs db tbl privs g u tls
  unfold updatePrivileges
  dsimp only
  cases hrev : (oldPrivs.filter (fun p => ¬ p ∈ newPrivs)).isEmpty <;>
    cases hadd : (newPrivs.filter (fun p => ¬ p ∈ oldPrivs)).isEmpty <;>
    simp [Except.map, MySQLGrant.sqlRevokeSubsetStatement, MySQLGrant.sqlGrantStatement]

end GrantModel

namespace GrantModel

/-- Claim C5 — conflict detection reports a conflict exactly when some live
grant has both the same grant-option flag and the same variant kind as the
desired grant (database/table targets are not compared, witnessed by the
conflict between grants on different databases); on a conflict, create
fails with the import-first error and issues no statement (a `.failure`
outcome carries no statements); a same-flag different-kind or same-kind
different-flag live grant is no conflict. -/
theorem C5_conflict_detection :
    (∀ (desired : MySQLGrant) (live : List MySQLGrant),
      hasConflictingGrants desired live = true ↔
        ∃ g ∈ live, desired.grantOption = g.grantOption ∧ desired.kind = g.kind)
    ∧ hasConflictingGrants
        (.tableGrant "db1" "*" ["SELECT"] false (.user "bob" "%") "NONE")
        [.tableGrant "db2" "other" ["INSERT"] false (.user "bob" "%") ""] = true
    ∧ hasConflictingGrants
        (.tableGrant "db1" "*" ["SELECT"] false (.user "bob" "%") "NONE")
        [.procedureGrant "db1" "PROCEDURE" "p" ["EXECUTE"] false (.user "bob" "%") ""] = false
    ∧ hasConflictingGrants
        (.tableGrant "db1" "*" ["SELECT"] false (.user "bob" "%") "NONE")
        [.tableGrant "db1" "*" ["SELECT"] true (.user "bob" "%") ""] = false
    ∧ createGrant ⟨"bob", "%", "", "db1", "*", ["SELECT"], [], false, "NONE"⟩ true
        (.ok [.tableGrant "db2" "other" ["INSERT"] false (.user "bob" "%") ""]) =
      .failure ("user/role \x7bbob %\x7d already has unmanaged grant - import it first") := by
  refine ⟨?_, by decide, by decide, by decide, by decide⟩
  intro desired live
  unfold hasConflictingGrants
  rw [List.any_eq_true]
  constructor
  · rintro ⟨g, hg, hp⟩
    simp only [Bool.and_eq_true, beq_iff_eq] at hp
    exact ⟨g, hg, hp⟩
  · rintro ⟨g, hg, h1, h2⟩
    exact ⟨g, hg, by simp [h1, h2]⟩

end GrantModel

namespace GrantModel

/-- Claim C6 — for any resource whose declared data parses to a grant: a
revoke failing with MySQL error code 1141, 1147 or 1403 still makes delete
report success; a show-grants query failing with such a code yields the
empty grant list rather than an error; any other execution error is a hard
failure whose message carries the revoke statement text, and any other
show-grants error is a hard failure. -/
theorem C6_nonexistent_grant_handling (d : ResourceData) (grant : MySQLGrant)
    (m msg : String) (u : UserOrRole) (n n' : Nat)
    (hparse : parseResourceFromData d = .ok grant)
    (hn : n = 1141 ∨ n = 1147 ∨ n = 1403)
    (hn' : ¬ (n' = 1141 ∨ n' = 1147 ∨ n' = 1403)) :
    deleteGrant d (some (.mysqlError n m)) = .success [grant.sqlRevokeStatement]
    ∧ showUserGrants u (.error (.mysqlError n m)) = .ok []
    ∧ deleteGrant d (some (.otherError msg)) =
        .failure ("error revoking ALL (" ++ grant.sqlRevokeStatement ++ "): " ++ msg)
    ∧ deleteGrant d (some (.mysqlError n' m)) =
        .failure ("error revoking ALL (" ++ grant.sqlRevokeStatement ++ "): " ++
          ("Error " ++ toString n' ++ ": " ++ m))
    ∧ showUserGrants u (.error (.otherError msg)) =
        .error ("showUserGrants - getting grants failed: " ++ msg) := by
  have hiNE : isNonExistingGrant (some (.mysqlError n m)) = true := by
    rcases hn with rfl | rfl | rfl <;> rfl
  have hiNE' : isNonExistingGrant (some (.mysqlError n' m)) = false := by
    unfold isNonExistingGrant
    push_neg at hn'
    simp only [Bool.or_eq_false_iff, beq_eq_false_iff_ne]
    exact ⟨⟨hn'.1, hn'.2.1⟩, hn'.2.2⟩
  have hOther : isNonExistingGrant (some (.otherError msg)) = false := rfl
  unfold deleteGrant showUserGrants
  rw [hparse]
  simp [hiNE, hiNE', hOther, GoError.text]

/-- Claim C6 (witness): the theorem instantiated at a concrete resource,
grant, error codes 1141 and 9999, and concrete messages. -/
theorem C6_witness :
    deleteGrant ⟨"bob", "%", "", "app", "*", ["SELECT"], [], false, "NONE"⟩
      (some (.mysqlError 1141 "no grant")) =
      .success [(MySQLGrant.tableGrant "app" "*" ["SELECT"] false
        (.user "bob" "%") "NONE").sqlRevokeStatement]
    ∧ showUserGrants (.user "bob" "%") (.error (.mysqlError 1141 "no grant")) = .ok []
    ∧ deleteGrant ⟨"bob", "%", "", "app", "*", ["SELECT"], [], false, "NONE"⟩
        (some (.otherError "connection lost")) =
      .failure ("error revoking ALL (" ++ (MySQLGrant.tableGrant "app" "*" ["SELECT"] false
        (.user "bob" "%") "NONE").sqlRevokeStatement ++ "): " ++ "connection lost")
    ∧ deleteGrant ⟨"bob", "%", "", "app", "*", ["SELECT"], [], false, "NONE"⟩
        (some (.mysqlError 9999 "no grant")) =
      .failure ("error revoking ALL (" ++ (MySQLGrant.tableGrant "app" "*" ["SELECT"] false
        (.user "bob" "%") "NONE").sqlRevokeStatement ++ "): " ++
        ("Error " ++ toString 9999 ++ ": " ++ "no grant"))
    ∧ showUserGrants (.user "bob" "%") (.error (.otherError "connection lost")) =
        .error ("showUserGrants - getting grants failed: " ++ "connection lost") :=
  C6_nonexistent_grant_handling
    ⟨"bob", "%", "", "app", "*", ["SELECT"], [], false, "NONE"⟩
    (MySQLGrant.tableGrant "app" "*" ["SELECT"] false (.user "bob" "%") "NONE")
    "no grant" "connection lost" (.user "bob" "%") 1141 9999
    (by decide) (by decide) (by decide)

end GrantModel

namespace GrantModel

/-- Claim C9 — privilege canonicalization is idempotent: canonicalizing an
already-canonicalized list (including `ALL PRIVILEGES` rewrites, whose
canonical form contains a space, and rejoined column lists) changes
nothing. -/
theorem C9_canonicalization_idempotent (P : List String) :
    normalizePerms (normalizePerms P) = normalizePerms P :=
  normalizePerms_idem_aux P

/-- Claim C10 — the tokenizer splits on commas only while outside a
parenthesized column list (the claim's example splits into exactly
`SELECT (a,b)` and `INSERT`), the number of tokens is always one more than
the number of outside-parenthesis commas, and no token starts with
whitespace (leading whitespace is discarded while the current token is
empty). -/
theorem C10_tokenizer_splits :
    extractPermTypes "SELECT (a,b), INSERT" = ["SELECT (a,b)", "INSERT"]
    ∧ (∀ g : String, (extractPermTypes g).length = outsideCommas g.data false + 1)
    ∧ (∀ g : String,
        (extractPermTypes g).all (fun t => !(t.data.headD '!').isWhitespace) = true) := by
  refine ⟨by decide, ?_, ?_⟩
  · intro g
    unfold extractPermTypes
    rw [List.length_map]
    exact extractPermTypesAux_length g.data false []
  · intro g
    rw [List.all_eq_true]
    intro t ht
    unfold extractPermTypes at ht
    obtain ⟨l, hl, rfl⟩ := List.mem_map.mp ht
    have := extractPermTypesAux_no_leading_ws g.data false [] (by decide) l hl
    cases l with
    | nil => decide
    | cons c cs => simpa using this

end GrantModel
